import Mathlib

/-!
# Verification of the `subprocess.exec` process execution engine

A shallow embedding of `command/exec.go` from the evergreen repository:
the command specification normalizer (`splitCommands`, `ParseParams`),
the environment composer (`doExpansions`, `addTempDirs`, the derived
variables injected by `getProc`), the process-constructor branch of
`getProc` used for background processes, and the execution supervisor
(`runCommand` and the tail of `Execute`).

The Go environment (`map[string]string`) is embedded as an insertion
ordered association list with map semantics (`envGet`, `envSet`).
External collaborators (the expansion engine, `conf.GetWorkingDirectory`,
the jasper process manager, the OS) are parameters of the embedded
functions; logging is embedded as a trace of `LogEvent`s so that ordering
claims about log output are statable.
-/

deriving instance DecidableEq for Except

namespace SubprocessExecSpec

/-- An environment mapping, embedding Go's `map[string]string` as an
association list with the leftmost binding for a key authoritative. -/
abbrev EnvMap := List (String × String)

/-- Lookup of a key in an environment mapping (Go `env[k]`). -/
def envGet (env : EnvMap) (k : String) : Option String :=
  match env with
  | [] => none
  | (k', v) :: rest => if k' = k then some v else envGet rest k

/-- Update of a key in an environment mapping (Go `env[k] = v`): replaces
the binding in place when the key is present, otherwise appends it. -/
def envSet (env : EnvMap) (k v : String) : EnvMap :=
  match env with
  | [] => [(k, v)]
  | (k', v') :: rest => if k' = k then (k, v) :: rest else (k', v') :: envSet rest k v

/-- Key-presence test (Go `_, ok := env[k]`). -/
def envContains (env : EnvMap) (k : String) : Bool :=
  (envGet env k).isSome

@[simp] theorem envGet_nil (k : String) : envGet [] k = none := rfl

theorem envGet_cons (k' v k : String) (rest : EnvMap) :
    envGet ((k', v) :: rest) k = if k' = k then some v else envGet rest k := rfl

/-- `envSet` then `envGet`: the written key reads back the written value,
every other key is unchanged. -/
theorem envGet_envSet (env : EnvMap) (k v k' : String) :
    envGet (envSet env k v) k' = if k = k' then some v else envGet env k' := by
  induction env with
  | nil => simp [envSet, envGet]
  | cons hd tl ih =>
    obtain ⟨hk, hv⟩ := hd
    simp only [envSet]
    by_cases h1 : hk = k
    · subst h1
      by_cases h2 : hk = k' <;> simp [envGet, h2]
    · simp only [if_neg h1]
      by_cases h2 : hk = k'
      · subst h2
        have hkk : ¬ k = hk := fun h => h1 h.symm
        simp [envGet, hkk]
      · simp [envGet, h2, ih]

/-! ## The shell-word splitter

Modelled from the spec: the external tokenizer (`github.com/google/shlex`,
a dependency not under `src/`) that splits a command string
"using shell-word-splitting rules (quoting and escaping honored, but no
variable substitution at this stage)".  The model follows the shlex state
machine: words separated by whitespace, `"…"` escaping quotes (backslash
escapes inside), `'…'` non-escaping quotes, `\` escaping the next
character outside quotes, `#` starting a to-end-of-line comment that is
skipped, and an error on EOF inside a quote or after an escape. -/

/-- State of the shell-word tokenizer. -/
inductive ShlexState where
  /-- Between words. -/
  | start
  /-- Inside an unquoted word. -/
  | inWord
  /-- After a backslash outside quotes. -/
  | escaping
  /-- Inside non-escaping single quotes. -/
  | quoting
  /-- Inside escaping double quotes. -/
  | quotingEscaping
  /-- After a backslash inside double quotes. -/
  | escapingQuoted
  /-- Inside a `#` comment. -/
  | comment
  deriving DecidableEq, Repr

/-- Is the character a shell word separator? -/
def isShlexSpace (ch : Char) : Bool :=
  ch = ' ' || ch = '\t' || ch = '\r' || ch = '\n'

/-- Modelled from the spec: the scanner of the shell-word splitter.
`cur` is the (reversed) current word (a word is in progress exactly in the
`inWord`, escaping and quoting states; a quote opens a word even if it
stays empty), `acc` the (reversed) finished words. -/
def shlexScan : List Char → ShlexState → List Char → List String →
    Except String (List String)
  | [], st, cur, acc =>
    match st with
    | .start => .ok acc.reverse
    | .comment => .ok acc.reverse
    | .inWord => .ok ((String.mk cur.reverse) :: acc).reverse
    | .escaping => .error "EOF found after escape character"
    | .quoting => .error "EOF found when expecting closing quote"
    | .quotingEscaping => .error "EOF found when expecting closing quote"
    | .escapingQuoted => .error "EOF found when expecting closing quote"
  | ch :: rest, st, cur, acc =>
    match st with
    | .start =>
      if isShlexSpace ch then shlexScan rest .start [] acc
      else if ch = '"' then shlexScan rest .quotingEscaping [] acc
      else if ch = '\'' then shlexScan rest .quoting [] acc
      else if ch = '\\' then shlexScan rest .escaping [] acc
      else if ch = '#' then shlexScan rest .comment [] acc
      else shlexScan rest .inWord [ch] acc
    | .inWord =>
      if isShlexSpace ch then
        shlexScan rest .start [] ((String.mk cur.reverse) :: acc)
      else if ch = '"' then shlexScan rest .quotingEscaping cur acc
      else if ch = '\'' then shlexScan rest .quoting cur acc
      else if ch = '\\' then shlexScan rest .escaping cur acc
      else shlexScan rest .inWord (ch :: cur) acc
    | .escaping => shlexScan rest .inWord (ch :: cur) acc
    | .escapingQuoted => shlexScan rest .quotingEscaping (ch :: cur) acc
    | .quotingEscaping =>
      if ch = '"' then shlexScan rest .inWord cur acc
      else if ch = '\\' then shlexScan rest .escapingQuoted cur acc
      else shlexScan rest .quotingEscaping (ch :: cur) acc
    | .quoting =>
      if ch = '\'' then shlexScan rest .inWord cur acc
      else shlexScan rest .quoting (ch :: cur) acc
    | .comment =>
      if ch = '\n' then shlexScan rest .start [] acc
      else shlexScan rest .comment cur acc

/-- Modelled from the spec: `shlex.Split` — split a string into shell
words, honoring quoting, escaping and comments; errors on an unterminated
quote or trailing escape. -/
def shlexSplit (s : String) : Except String (List String) :=
  shlexScan s.toList .start [] []

example : shlexSplit "echo hi" = .ok ["echo", "hi"] := rfl
example : shlexSplit "  " = .ok [] := rfl

/-! ## The command specification -/

/-- The `subprocessExec` command specification (`src/command/exec.go`
lines 23-77), the decoded form of the user's step definition. -/
structure SubprocessExec where
  Binary : String
  Args : List String
  Env : EnvMap
  Command : String
  Path : List String
  AddExpansionsToEnv : Bool
  IncludeExpansionsInEnv : List String
  Background : Bool
  Silent : Bool
  SystemLog : Bool
  WorkingDir : String
  IgnoreStandardOutput : Bool
  IgnoreStandardError : Bool
  RedirectStandardErrorToOutput : Bool
  ContinueOnError : Bool
  KeepEmptyArgs : Bool
  deriving DecidableEq, Repr

/-- The all-fields-zero specification, the Go zero value of the struct. -/
def emptyExec : SubprocessExec where
  Binary := ""
  Args := []
  Env := []
  Command := ""
  Path := []
  AddExpansionsToEnv := false
  IncludeExpansionsInEnv := []
  Background := false
  Silent := false
  SystemLog := false
  WorkingDir := ""
  IgnoreStandardOutput := false
  IgnoreStandardError := false
  RedirectStandardErrorToOutput := false
  ContinueOnError := false
  KeepEmptyArgs := false

/-- `subprocessExec.splitCommands` (`exec.go` lines 107-126): resolve the
command-string-vs-binary+args exclusivity and tokenize the command
string. -/
def splitCommands (c : SubprocessExec) : Except String SubprocessExec :=
  if c.Command ≠ "" then
    if c.Binary ≠ "" ∨ c.Args ≠ [] then
      .error "must specify command as either arguments or a command string but not both"
    else
      match shlexSplit c.Command with
      | .error e => .error ("problem parsing subprocess.exec command: " ++ e)
      | .ok [] => .error "no arguments for command subprocess.exec"
      | .ok (b :: rest) =>
        .ok { c with Binary := b, Args := if rest ≠ [] then rest else c.Args }
  else
    .ok c

/-- `subprocessExec.ParseParams` after the mapstructure decode
(`exec.go` lines 82-105): split the command string, let `silent` force
both ignore flags, and reject ignoring stdout while redirecting stderr
into it.  (The Go `c.Env == nil` re-initialization has no counterpart:
the embedded `EnvMap` has no nil/empty distinction.) -/
def ParseParams (c : SubprocessExec) : Except String SubprocessExec :=
  match splitCommands c with
  | .error e => .error e
  | .ok c =>
    let c := if c.Silent then
      { c with IgnoreStandardError := true, IgnoreStandardOutput := true }
    else c
    if c.IgnoreStandardOutput ∧ c.RedirectStandardErrorToOutput then
      .error "cannot ignore standard out, and redirect standard error to it"
    else
      .ok c

example : splitCommands { emptyExec with Command := "echo hi" } =
    .ok { emptyExec with Command := "echo hi", Binary := "echo", Args := ["hi"] } := rfl

/-! ## The environment composer -/

/-- One call to the expansion engine (`exp.ExpandString`): the expanded
value, or the Go zero value `""` together with the error message on
failure. -/
def runExpand (expand : String → Except String String) (s : String) :
    String × List String :=
  match expand s with
  | .ok v => (v, [])
  | .error e => ("", [e])

/-- The argument loop of `doExpansions` (`exec.go` lines 141-156): expand
each argument; keep an empty expansion as a single empty argument;
re-tokenize a non-empty expansion with the shell-word splitter (a split
error contributes to the catcher and appends nothing).  Returns the new
argument list and the collected error messages. -/
def expandArgs (expand : String → Except String String) :
    List String → List String × List String
  | [] => ([], [])
  | a :: rest =>
    let r := runExpand expand a
    let tail := expandArgs expand rest
    if r.1 = "" then (r.1 :: tail.1, r.2 ++ tail.2)
    else
      match shlexSplit r.1 with
      | .ok splitArgs => (splitArgs ++ tail.1, r.2 ++ tail.2)
      | .error e => (tail.1, (r.2 ++ [e]) ++ tail.2)

/-- The env-value loop of `doExpansions` (lines 158-161): expand every
value of the environment mapping in place. -/
def expandEnv (expand : String → Except String String) :
    EnvMap → EnvMap × List String
  | [] => ([], [])
  | (k, v) :: rest =>
    let r := runExpand expand v
    let tail := expandEnv expand rest
    ((k, r.1) :: tail.1, r.2 ++ tail.2)

/-- The `addToPath` segment loop (lines 164-168): expand each path
segment (a failed segment contributes the Go zero value `""`). -/
def expandPath (expand : String → Except String String) :
    List String → List String × List String
  | [] => ([], [])
  | s :: rest =>
    let r := runExpand expand s
    let tail := expandPath expand rest
    (r.1 :: tail.1, r.2 ++ tail.2)

/-- `subprocessExec.doExpansions` (lines 128-188) up to the final catcher
resolution: the updated specification and the collected error messages in
the order the Go catcher receives them.  `osPATH` models the caller's
inherited `os.Getenv("PATH")`, `listSep` the platform path-list separator
`filepath.ListSeparator`, and `expMap` the full expansion mapping
`exp.Map()`. -/
def doExpansionsCore (expand : String → Except String String)
    (expMap : EnvMap) (osPATH listSep : String) (c : SubprocessExec) :
    SubprocessExec × List String :=
  let rwd := runExpand expand c.WorkingDir
  let rbin := runExpand expand c.Binary
  let rcmd := runExpand expand c.Command
  let rargs := expandArgs expand c.Args
  let renv := expandEnv expand c.Env
  let rpath :=
    if c.Path ≠ [] then
      let segs := expandPath expand c.Path
      (envSet renv.1 "PATH" (String.intercalate listSep (segs.1 ++ [osPATH])), segs.2)
    else (renv.1, [])
  let env := if c.AddExpansionsToEnv then
      expMap.foldl (fun env kv => envSet env kv.1 kv.2) rpath.1
    else rpath.1
  let env := c.IncludeExpansionsInEnv.foldl
    (fun env ei =>
      match envGet expMap ei with
      | some v => envSet env ei v
      | none => env) env
  ({ c with WorkingDir := rwd.1, Binary := rbin.1, Command := rcmd.1,
            Args := rargs.1, Env := env },
   rwd.2 ++ rbin.2 ++ rcmd.2 ++ rargs.2 ++ renv.2 ++ rpath.2)

/-- `subprocessExec.doExpansions`: run every expansion call, then resolve
the catcher — succeed iff no call failed, otherwise return every
collected failure message. -/
def doExpansions (expand : String → Except String String)
    (expMap : EnvMap) (osPATH listSep : String) (c : SubprocessExec) :
    Except (List String) SubprocessExec :=
  if (doExpansionsCore expand expMap osPATH listSep c).2 = [] then
    .ok (doExpansionsCore expand expMap osPATH listSep c).1
  else
    .error (doExpansionsCore expand expMap osPATH listSep c).2

/-- The failure messages of every expansion call site of `doExpansions`,
collected unconditionally and in call order; used to state that the
catcher never short-circuits. -/
def expansionFailures (expand : String → Except String String)
    (c : SubprocessExec) : List String :=
  (runExpand expand c.WorkingDir).2 ++ (runExpand expand c.Binary).2 ++
    (runExpand expand c.Command).2 ++ (expandArgs expand c.Args).2 ++
    (expandEnv expand c.Env).2 ++
    (if c.Path ≠ [] then (expandPath expand c.Path).2 else [])

/-! ## Derived environment variables -/

/-- Modelled from the spec: the name of the task-id marker environment
variable (`util.MarkerTaskID`, a constant of the `util` package, which is
not under `src/`). -/
def MarkerTaskID : String := "EVR_TASK_ID"

/-- Modelled from the spec: the name of the agent process-id marker
environment variable (`util.MarkerAgentPID`, a constant of the `util`
package, which is not under `src/`). -/
def MarkerAgentPID : String := "EVR_AGENT_PID"

/-- `filepath.Join` of a clean directory and one component on a Unix-like
platform. -/
def pathJoin (dir name : String) : String := dir ++ "/" ++ name

/-- The environment mutations at the head of `subprocessExec.getProc`
(lines 190-200): the task-id and agent-pid markers are assigned
unconditionally, GOCACHE and CI only when not already defined. -/
def getProcEnv (taskID : String) (agentPid : Nat) (workingDir : String)
    (env : EnvMap) : EnvMap :=
  let env := envSet env MarkerTaskID taskID
  let env := envSet env MarkerAgentPID (toString agentPid)
  let env := if envContains env "GOCACHE" then env
    else envSet env "GOCACHE" (pathJoin workingDir ".gocache")
  if envContains env "CI" then env else envSet env "CI" "true"

/-- `addTempDirs` (lines 261-268): point `TMP`, `TMPDIR` and `TEMP` at
the task-scoped temp directory, only for names not already present. -/
def addTempDirs (env : EnvMap) (dir : String) : EnvMap :=
  ["TMP", "TMPDIR", "TEMP"].foldl
    (fun env key => if envContains env key then env else envSet env key dir) env

/-! ## The execution supervisor -/

/-- The empty-argument strip of `Execute` (lines 298-304): the downward
removal loop deletes every argument that is exactly the empty string, in
place and in order. -/
def stripEmptyArgs : List String → List String
  | [] => []
  | a :: rest => if a = "" then stripEmptyArgs rest else a :: stripEmptyArgs rest

/-- One entry of the log trace: which sink received the record
(task-scoped execution logger vs system logger) and at which severity. -/
inductive LogEvent where
  /-- `logger.Execution().Error` -/
  | executionError (msg : String)
  /-- `logger.Execution().Warning` -/
  | executionWarning (msg : String)
  /-- `logger.Execution().Notice` -/
  | executionNotice (msg : String)
  /-- `logger.Execution().Info` -/
  | executionInfo (msg : String)
  /-- The debug record of lines 306-310. -/
  | executionDebugCommand (workingDir : String) (background : Bool) (binary : String)
  /-- The continue-on-error notice of lines 333-339, with its structured
  fields and the wrapped run error. -/
  | continueOnErrorNotice (task binary : String) (background silent cont : Bool)
      (err : Option String)
  /-- `logger.System().Debug` with a plain message. -/
  | systemDebug (msg : String)
  /-- `logger.System().Debug(message.CollectAllProcesses())`: the
  diagnostic dump of all tracked processes to the system sink. -/
  | systemProcessDump
  /-- `logger.Execution().Notice(err)` on the abort path (line 317). -/
  | executionNoticeErr (err : Option String)
  deriving DecidableEq, Repr

/-- `subprocessExec.runCommand` (lines 325-344): `runResult` is the error
returned by `cmd.Run(ctx)`, `none` on success.  Under `continueOnError`
the error is logged at notice severity and suppressed. -/
def runCommand (taskID : String) (runResult : Option String)
    (c : SubprocessExec) : Option String × List LogEvent :=
  let log := if c.Silent then
      [LogEvent.executionInfo "executing command in silent mode"]
    else []
  if c.ContinueOnError then
    (none, log ++ [LogEvent.continueOnErrorNotice taskID c.Binary c.Background
      c.Silent true runResult])
  else
    (runResult, log)

/-- The classes of error `Execute` can return. -/
inductive ExecError where
  /-- Expansion failure: `"problem expanding strings"` wrapping the
  collected failures. -/
  | expansion (failures : List String)
  /-- `conf.GetWorkingDirectory` failure. -/
  | workingDir (msg : String)
  /-- The (unsuppressed) error of the process run. -/
  | run (msg : String)
  /-- `"%s aborted"`: the caller's cancellation fired. -/
  | aborted (name : String)
  deriving DecidableEq, Repr

/-- The observable outcome of one `Execute` invocation: the returned
error, the log trace in emission order, whether control reached the
process-spawning run, and the argument list and environment the process
was given. -/
structure ExecOutcome where
  error : Option ExecError
  log : List LogEvent
  spawned : Bool
  finalArgs : List String
  finalEnv : EnvMap
  deriving DecidableEq, Repr

/-- `filepath.IsAbs` on a Unix-like platform. -/
def filepathIsAbs (s : String) : Bool := s.startsWith "/"

/-- The tail of `subprocessExec.Execute` (lines 296-322), from
`addTempDirs` onward, once the working and temp directories have been
resolved: inject temp-directory variables, strip empty arguments unless
`keepEmptyArgs`, apply the `getProc` environment mutations, run the
command under the continue-on-error policy, and let a fired caller
cancellation signal override everything with the aborted outcome, after
dumping all tracked processes to the system sink. -/
def executeSpawn (taskID : String) (agentPid : Nat) (runResult : Option String)
    (ctxCancelled : Bool) (taskTmpDir : String) (log : List LogEvent)
    (c : SubprocessExec) : ExecOutcome :=
  let c := { c with Env := addTempDirs c.Env taskTmpDir }
  let c := if c.KeepEmptyArgs then c else { c with Args := stripEmptyArgs c.Args }
  let log := log ++ [LogEvent.executionDebugCommand c.WorkingDir c.Background c.Binary]
  let c := { c with Env := getProcEnv taskID agentPid c.WorkingDir c.Env }
  let r := runCommand taskID runResult c
  let log := log ++ r.2
  if ctxCancelled then
    { error := some (.aborted "subprocess.exec"),
      log := log ++ [.systemDebug "dumping running processes", .systemProcessDump,
        .executionNoticeErr r.1],
      spawned := true, finalArgs := c.Args, finalEnv := c.Env }
  else
    { error := r.1.map ExecError.run, log := log,
      spawned := true, finalArgs := c.Args, finalEnv := c.Env }

/-- `subprocessExec.Execute` (lines 270-323).  The collaborators are
parameters: `expand`/`expMap` the expansion engine, `osPATH`/`listSep`
the ambient OS state, `getWorkingDirectory` is
`conf.GetWorkingDirectory`, `runResult` the error (if any) produced by
`cmd.Run(ctx)`, and `ctxCancelled` whether the caller's cancellation
signal has fired by the time the run returns (`ctx.Err() != nil`). -/
def Execute (expand : String → Except String String) (expMap : EnvMap)
    (osPATH listSep : String)
    (getWorkingDirectory : String → Except String String)
    (confWorkDir taskID : String) (agentPid : Nat)
    (runResult : Option String) (ctxCancelled : Bool)
    (c : SubprocessExec) : ExecOutcome :=
  match doExpansions expand expMap osPATH listSep c with
  | .error es =>
    { error := some (.expansion es),
      log := [.executionError "problem expanding command values"],
      spawned := false, finalArgs := [], finalEnv := [] }
  | .ok c =>
    let log := if filepathIsAbs c.WorkingDir
        && !(String.isPrefixOf confWorkDir c.WorkingDir) then
        [LogEvent.executionWarning
          "the working directory is an absolute path without the required prefix"]
      else []
    match getWorkingDirectory c.WorkingDir with
    | .error e =>
      { error := some (.workingDir e), log := log ++ [.executionWarning e],
        spawned := false, finalArgs := [], finalEnv := [] }
    | .ok wd =>
      match getWorkingDirectory "tmp" with
      | .ok taskTmpDir =>
        executeSpawn taskID agentPid runResult ctxCancelled taskTmpDir log
          { c with WorkingDir := wd }
      | .error e =>
        executeSpawn taskID agentPid runResult ctxCancelled ""
          (log ++ [LogEvent.executionNotice e]) { c with WorkingDir := wd }

/-! ## The process constructor -/

/-- The observable outcome of the `ProcConstructor` closure of `getProc`
(lines 205-240): whether a private cancellation signal was created,
whether it has been released, whether a completion trigger that will
release it was registered, whether the PID was tracked, and the returned
process (by PID) or launch error. -/
structure ProcConstructorOutcome where
  privateCancelCreated : Bool
  privateCancelReleased : Bool
  completionTriggerRegistered : Bool
  tracked : Bool
  result : Except String Nat
  deriving DecidableEq, Repr

/-- The `ProcConstructor` closure of `getProc` (lines 205-240):
in background mode a private cancellation signal is created (`cancel`);
if `CreateProcess` fails, `cancel` is invoked before the error is
returned; on success a completion trigger is registered to release the
private signal when the process exits, and the PID is tracked. -/
def procConstructor (background : Bool) (createProcess : Except String Nat) :
    ProcConstructorOutcome :=
  match createProcess with
  | .error e =>
    { privateCancelCreated := background, privateCancelReleased := background,
      completionTriggerRegistered := false, tracked := false, result := .error e }
  | .ok pid =>
    { privateCancelCreated := background, privateCancelReleased := false,
      completionTriggerRegistered := background, tracked := true, result := .ok pid }

/-! ## Normalizer lemmas and claims -/

theorem splitCommands_noCommand (c : SubprocessExec) (h : c.Command = "") :
    splitCommands c = .ok c := by
  simp [splitCommands, h]

/-- `splitCommands` only rewrites `Binary` and `Args`: the output-routing
flags and the command string are preserved on success. -/
theorem splitCommands_preserves (c c' : SubprocessExec)
    (h : splitCommands c = .ok c') :
    c'.Silent = c.Silent ∧
    c'.IgnoreStandardOutput = c.IgnoreStandardOutput ∧
    c'.IgnoreStandardError = c.IgnoreStandardError ∧
    c'.RedirectStandardErrorToOutput = c.RedirectStandardErrorToOutput ∧
    c'.Command = c.Command := by
  unfold splitCommands at h
  split at h
  · split at h
    · exact Except.noConfusion h
    · split at h
      · exact Except.noConfusion h
      · exact Except.noConfusion h
      · injection h with h2
        subst h2
        exact ⟨rfl, rfl, rfl, rfl, rfl⟩
  · injection h with h2
    subst h2
    exact ⟨rfl, rfl, rfl, rfl, rfl⟩

/-- C4: for every specification in which `command` is non-empty and
either `binary` is non-empty or `args` is non-empty, normalization fails
with the configuration-conflict error: `splitCommands` rejects the
specification and `ParseParams` propagates the rejection, so the step is
refused before any process construction. -/
theorem C4_command_exclusivity (c : SubprocessExec)
    (hc : c.Command ≠ "") (hb : c.Binary ≠ "" ∨ c.Args ≠ []) :
    splitCommands c =
      .error "must specify command as either arguments or a command string but not both" ∧
    ParseParams c =
      .error "must specify command as either arguments or a command string but not both" := by
  have hsplit : splitCommands c =
      .error "must specify command as either arguments or a command string but not both" := by
    unfold splitCommands
    rw [if_pos hc, if_pos hb]
  exact ⟨hsplit, by simp [ParseParams, hsplit]⟩

/-- C4 witness: a concrete specification with both a command string and a
binary. -/
theorem C4_witness :
    splitCommands { emptyExec with Command := "ls -l", Binary := "ls" } =
      .error "must specify command as either arguments or a command string but not both" ∧
    ParseParams { emptyExec with Command := "ls -l", Binary := "ls" } =
      .error "must specify command as either arguments or a command string but not both" :=
  C4_command_exclusivity { emptyExec with Command := "ls -l", Binary := "ls" }
    (by decide) (Or.inl (by decide))

/-- C5: for a specification whose non-empty `command` tokenizes under the
shell-word-splitting rules to a non-empty token sequence, normalization
sets `binary` to the first token and `args` to the remaining tokens; an
empty token sequence yields the "no arguments" configuration error; and
`"echo hi"` tokenizes to `["echo", "hi"]`, so it yields
`binary = "echo"`, `args = ["hi"]`. -/
theorem C5_command_tokenization (c : SubprocessExec)
    (hc : c.Command ≠ "") (hb : c.Binary = "") (ha : c.Args = []) :
    (∀ b rest, shlexSplit c.Command = .ok (b :: rest) →
        splitCommands c = .ok { c with Binary := b, Args := rest }) ∧
    (shlexSplit c.Command = .ok [] →
        splitCommands c = .error "no arguments for command subprocess.exec") ∧
    shlexSplit "echo hi" = .ok ["echo", "hi"] := by
  have hnot : ¬ (c.Binary ≠ "" ∨ c.Args ≠ []) := by
    rintro (h | h)
    · exact h hb
    · exact h ha
  refine ⟨?_, ?_, rfl⟩
  · intro b rest hsplit
    unfold splitCommands
    rw [if_pos hc, if_neg hnot, hsplit]
    cases rest with
    | nil => simp [ha]
    | cons x xs => simp
  · intro hsplit
    unfold splitCommands
    rw [if_pos hc, if_neg hnot, hsplit]

/-- C5 witness: `"echo hi"` splits into binary and argument; a pure
comment command string tokenizes to no words and is refused. -/
theorem C5_witness :
    splitCommands { emptyExec with Command := "echo hi" } =
      .ok { emptyExec with Command := "echo hi", Binary := "echo", Args := ["hi"] } ∧
    splitCommands { emptyExec with Command := " # comment only" } =
      .error "no arguments for command subprocess.exec" :=
  ⟨(C5_command_tokenization { emptyExec with Command := "echo hi" }
      (by decide) rfl rfl).1 "echo" ["hi"] rfl,
   (C5_command_tokenization { emptyExec with Command := " # comment only" }
      (by decide) rfl rfl).2.1 rfl⟩

/-- C9: a specification with `silent = true` and
`redirectStderrToStdout = true` is rejected by `ParseParams` with the
ignore/redirect conflict error even when `ignoreStdout` was not set:
`silent` forces `ignoreStdout` to true before the exclusivity check
runs. -/
theorem C9_silent_forces_conflict (c c₀ : SubprocessExec)
    (hs : c.Silent = true) (hr : c.RedirectStandardErrorToOutput = true)
    (hsplit : splitCommands c = .ok c₀) :
    ParseParams c =
      .error "cannot ignore standard out, and redirect standard error to it" := by
  obtain ⟨h1, _, _, h4, _⟩ := splitCommands_preserves c c₀ hsplit
  simp [ParseParams, hsplit, h1.trans hs, h4.trans hr]

/-- C9 witness: silent plus redirect, with `ignoreStdout` left unset. -/
theorem C9_witness :
    ParseParams
        { emptyExec with Silent := true, RedirectStandardErrorToOutput := true } =
      .error "cannot ignore standard out, and redirect standard error to it" :=
  C9_silent_forces_conflict
    { emptyExec with Silent := true, RedirectStandardErrorToOutput := true }
    { emptyExec with Silent := true, RedirectStandardErrorToOutput := true }
    rfl rfl rfl

/-! ## Composer and supervisor lemmas -/

/-- The catcher of `doExpansions` holds exactly the failures of every
call site, in order. -/
theorem doExpansionsCore_failures (expand : String → Except String String)
    (expMap : EnvMap) (osPATH listSep : String) (c : SubprocessExec) :
    (doExpansionsCore expand expMap osPATH listSep c).2 =
      expansionFailures expand c := by
  by_cases h : c.Path = [] <;> simp [doExpansionsCore, expansionFailures, h]

theorem doExpansions_ok (expand : String → Except String String)
    (expMap : EnvMap) (osPATH listSep : String) (c c' : SubprocessExec)
    (h : doExpansions expand expMap osPATH listSep c = .ok c') :
    c' = (doExpansionsCore expand expMap osPATH listSep c).1 ∧
    expansionFailures expand c = [] := by
  unfold doExpansions at h
  split at h
  · injection h with h2
    refine ⟨h2.symm, ?_⟩
    rw [← doExpansionsCore_failures expand expMap osPATH listSep c]
    assumption
  · exact Except.noConfusion h

theorem doExpansions_error (expand : String → Except String String)
    (expMap : EnvMap) (osPATH listSep : String) (c : SubprocessExec)
    (es : List String)
    (h : doExpansions expand expMap osPATH listSep c = .error es) :
    es = expansionFailures expand c ∧ es ≠ [] := by
  unfold doExpansions at h
  split at h
  · exact Except.noConfusion h
  · injection h with h2
    subst h2
    refine ⟨(doExpansionsCore_failures expand expMap osPATH listSep c).symm ▸ rfl, ?_⟩
    rw [doExpansionsCore_failures expand expMap osPATH listSep c] at *
    assumption

/-- `doExpansions` only rewrites the expanded string fields: the policy
flags are preserved on success. -/
theorem doExpansions_preserves (expand : String → Except String String)
    (expMap : EnvMap) (osPATH listSep : String) (c c' : SubprocessExec)
    (h : doExpansions expand expMap osPATH listSep c = .ok c') :
    c'.ContinueOnError = c.ContinueOnError ∧
    c'.KeepEmptyArgs = c.KeepEmptyArgs ∧
    c'.Background = c.Background ∧
    c'.Silent = c.Silent := by
  obtain ⟨hc', -⟩ := doExpansions_ok expand expMap osPATH listSep c c' h
  subst hc'
  exact ⟨rfl, rfl, rfl, rfl⟩

/-- `Execute` on an expansion failure: the step fails before any process
is spawned, with the aggregated expansion error. -/
theorem Execute_expansion_error (expand : String → Except String String)
    (expMap : EnvMap) (osPATH listSep : String)
    (gwd : String → Except String String) (confWorkDir taskID : String)
    (agentPid : Nat) (runResult : Option String) (ctxCancelled : Bool)
    (c : SubprocessExec) (es : List String)
    (h : doExpansions expand expMap osPATH listSep c = .error es) :
    Execute expand expMap osPATH listSep gwd confWorkDir taskID agentPid
        runResult ctxCancelled c =
      { error := some (.expansion es),
        log := [.executionError "problem expanding command values"],
        spawned := false, finalArgs := [], finalEnv := [] } := by
  simp [Execute, h]

/-- `Execute` after successful expansion and working-directory
resolution reaches the spawning tail `executeSpawn`. -/
theorem Execute_eq_spawn (expand : String → Except String String)
    (expMap : EnvMap) (osPATH listSep : String)
    (gwd : String → Except String String) (confWorkDir taskID : String)
    (agentPid : Nat) (runResult : Option String) (ctxCancelled : Bool)
    (c c' : SubprocessExec) (wd : String)
    (hexp : doExpansions expand expMap osPATH listSep c = .ok c')
    (hwd : gwd c'.WorkingDir = .ok wd) :
    ∃ taskTmpDir log₀,
      Execute expand expMap osPATH listSep gwd confWorkDir taskID agentPid
          runResult ctxCancelled c =
        executeSpawn taskID agentPid runResult ctxCancelled taskTmpDir log₀
          { c' with WorkingDir := wd } := by
  simp only [Execute, hexp, hwd]
  cases htmp : gwd "tmp" with
  | ok d => exact ⟨d, _, rfl⟩
  | error e => exact ⟨"", _, rfl⟩

/-- In the cancelled case `executeSpawn` returns the aborted outcome. -/
theorem executeSpawn_cancelled_error (taskID : String) (agentPid : Nat)
    (runResult : Option String) (taskTmpDir : String) (log : List LogEvent)
    (c : SubprocessExec) :
    (executeSpawn taskID agentPid runResult true taskTmpDir log c).error =
      some (.aborted "subprocess.exec") := by
  by_cases h : c.KeepEmptyArgs <;> simp [executeSpawn, h]

/-- In the cancelled case `executeSpawn` dumps all tracked processes to
the system sink. -/
theorem executeSpawn_cancelled_dump (taskID : String) (agentPid : Nat)
    (runResult : Option String) (taskTmpDir : String) (log : List LogEvent)
    (c : SubprocessExec) :
    LogEvent.systemProcessDump ∈
      (executeSpawn taskID agentPid runResult true taskTmpDir log c).log := by
  by_cases h : c.KeepEmptyArgs <;> simp [executeSpawn, h]

/-- When the cancellation signal has not fired, `executeSpawn` never
returns the aborted outcome. -/
theorem executeSpawn_no_abort (taskID : String) (agentPid : Nat)
    (runResult : Option String) (taskTmpDir : String) (log : List LogEvent)
    (c : SubprocessExec) (name : String) :
    (executeSpawn taskID agentPid runResult false taskTmpDir log c).error ≠
      some (.aborted name) := by
  by_cases hk : c.KeepEmptyArgs <;> by_cases hco : c.ContinueOnError <;>
    cases runResult <;> simp [executeSpawn, runCommand, hk, hco]

/-- Unless `keepEmptyArgs` is set, the arguments handed to the process
are the stripped arguments. -/
theorem executeSpawn_finalArgs (taskID : String) (agentPid : Nat)
    (runResult : Option String) (ctxCancelled : Bool) (taskTmpDir : String)
    (log : List LogEvent) (c : SubprocessExec) (h : c.KeepEmptyArgs = false) :
    (executeSpawn taskID agentPid runResult ctxCancelled taskTmpDir log c).finalArgs =
      stripEmptyArgs c.Args := by
  cases ctxCancelled <;> simp [executeSpawn, h]

/-- The downward removal loop deletes exactly the empty-string
arguments. -/
theorem stripEmptyArgs_eq_filter (l : List String) :
    stripEmptyArgs l = l.filter (fun a => a ≠ "") := by
  induction l with
  | nil => rfl
  | cons a rest ih =>
    by_cases h : a = "" <;> simp [stripEmptyArgs, List.filter_cons, h, ih]

/-- Non-empty arguments (in particular whitespace-only ones) are never
removed by the strip: every occurrence survives. -/
theorem count_stripEmptyArgs (l : List String) (a : String) (ha : a ≠ "") :
    (stripEmptyArgs l).count a = l.count a := by
  induction l with
  | nil => rfl
  | cons b rest ih =>
    by_cases h : b = ""
    · subst h
      simp [stripEmptyArgs, List.count_cons, ih, ha]
    · simp [stripEmptyArgs, h, List.count_cons, ih]

/-- Reading a key after the inject-if-absent idiom
`if _, ok := env[k]; !ok { env[k] = dir }`. -/
theorem envGet_condSet (env : EnvMap) (k dir k' : String) :
    envGet (if envContains env k then env else envSet env k dir) k' =
      if k = k' then some ((envGet env k).getD dir) else envGet env k' := by
  by_cases h : envContains env k
  · rw [if_pos h]
    by_cases hk : k = k'
    · subst hk
      unfold envContains at h
      obtain ⟨v, hv⟩ := Option.isSome_iff_exists.mp h
      rw [if_pos rfl, hv]
      rfl
    · rw [if_neg hk]
  · rw [if_neg h, envGet_envSet]
    by_cases hk : k = k'
    · subst hk
      rw [if_pos rfl, if_pos rfl]
      have hnone : envGet env k = none := by
        unfold envContains at h
        exact Option.not_isSome_iff_eq_none.mp (by simpa using h)
      rw [hnone]
      rfl
    · rw [if_neg hk, if_neg hk]

/-- When no path segment fails to expand, the expanded segments are
exactly the images of the segments under the expansion engine, in
order. -/
theorem expandPath_spec (expand : String → Except String String)
    (l : List String) (h : (expandPath expand l).2 = []) :
    l.map expand = (expandPath expand l).1.map Except.ok := by
  induction l with
  | nil => rfl
  | cons s rest ih =>
    cases hfa : expand s with
    | ok v =>
      simp only [expandPath, runExpand, hfa, List.append_eq_nil] at h ⊢
      simp [hfa, ih h.2]
    | error e =>
      simp [expandPath, runExpand, hfa] at h

/-- The environment of a composed specification with a non-empty
`addToPath` and no expansion bulk-copy. -/
theorem doExpansionsCore_env_of_path (expand : String → Except String String)
    (expMap : EnvMap) (osPATH listSep : String) (c : SubprocessExec)
    (hne : c.Path ≠ []) (hadd : c.AddExpansionsToEnv = false) :
    (doExpansionsCore expand expMap osPATH listSep c).1.Env =
      c.IncludeExpansionsInEnv.foldl
        (fun env ei =>
          match envGet expMap ei with
          | some v => envSet env ei v
          | none => env)
        (envSet (expandEnv expand c.Env).1 "PATH"
          (String.intercalate listSep ((expandPath expand c.Path).1 ++ [osPATH]))) := by
  simp [doExpansionsCore, hne, hadd]

/-- The `includeExpansionsInEnv` copy does not touch keys outside the
requested names. -/
theorem envGet_includeFold (expMap : EnvMap) (l : List String)
    (env : EnvMap) (k : String) (hk : k ∉ l) :
    envGet (l.foldl
        (fun env ei =>
          match envGet expMap ei with
          | some v => envSet env ei v
          | none => env) env) k = envGet env k := by
  induction l generalizing env with
  | nil => rfl
  | cons a rest ih =>
    have ha : ¬ a = k := fun h => hk (h ▸ List.mem_cons_self a rest)
    have hk' : k ∉ rest := fun h => hk (List.mem_cons_of_mem a h)
    simp only [List.foldl_cons]
    rw [ih _ hk']
    cases hm : envGet expMap a with
    | none => rfl
    | some v =>
      rw [envGet_envSet, if_neg ha]

/-! ## Claims on the environment composer -/

/-- C7: when expansion calls fail during composition, no call is skipped:
the aggregated error of `doExpansions` is exactly the failures of every
call site in call order, composition fails whenever any site fails, and
`Execute` then returns the aggregated expansion error without reaching
the process-spawning phase. -/
theorem C7_expansion_aggregation (expand : String → Except String String)
    (expMap : EnvMap) (osPATH listSep : String)
    (gwd : String → Except String String) (confWorkDir taskID : String)
    (agentPid : Nat) (runResult : Option String) (ctxCancelled : Bool)
    (c : SubprocessExec) :
    (∀ es, doExpansions expand expMap osPATH listSep c = .error es →
        es = expansionFailures expand c) ∧
    (expansionFailures expand c ≠ [] →
        doExpansions expand expMap osPATH listSep c =
          .error (expansionFailures expand c)) ∧
    (∀ es, doExpansions expand expMap osPATH listSep c = .error es →
        (Execute expand expMap osPATH listSep gwd confWorkDir taskID agentPid
            runResult ctxCancelled c).spawned = false ∧
        (Execute expand expMap osPATH listSep gwd confWorkDir taskID agentPid
            runResult ctxCancelled c).error = some (.expansion es)) := by
  refine ⟨fun es h => (doExpansions_error expand expMap osPATH listSep c es h).1,
    ?_, ?_⟩
  · intro hne
    unfold doExpansions
    rw [doExpansionsCore_failures expand expMap osPATH listSep c, if_neg hne]
  · intro es h
    rw [Execute_expansion_error expand expMap osPATH listSep gwd confWorkDir
      taskID agentPid runResult ctxCancelled c es h]
    exact ⟨rfl, rfl⟩

/-- C7 witness: an expansion engine failing on both the working directory
and the binary; both failures are reported and nothing is spawned. -/
theorem C7_witness :
    doExpansions
        (fun s => if s = "w" ∨ s = "b" then Except.error ("fail " ++ s) else Except.ok s)
        [] "p" ":" { emptyExec with WorkingDir := "w", Binary := "b", Args := ["x"] } =
      .error ["fail w", "fail b"] ∧
    (Execute
        (fun s => if s = "w" ∨ s = "b" then Except.error ("fail " ++ s) else Except.ok s)
        [] "p" ":" (fun s => Except.ok s) "" "t1" 7 none false
        { emptyExec with WorkingDir := "w", Binary := "b", Args := ["x"] }).spawned =
      false := by
  have h2 := (C7_expansion_aggregation
      (fun s => if s = "w" ∨ s = "b" then Except.error ("fail " ++ s) else Except.ok s)
      [] "p" ":" (fun s => Except.ok s) "" "t1" 7 none false
      { emptyExec with WorkingDir := "w", Binary := "b", Args := ["x"] }).2
  have herr : doExpansions
      (fun s => if s = "w" ∨ s = "b" then Except.error ("fail " ++ s) else Except.ok s)
      [] "p" ":" { emptyExec with WorkingDir := "w", Binary := "b", Args := ["x"] } =
      .error ["fail w", "fail b"] := h2.1 (by decide)
  exact ⟨herr, (h2.2 ["fail w", "fail b"] herr).1⟩

/-- C6 counterexample: with `addToPath = ["/opt/tool"]` but
`addExpansionsToEnv` set and an expansion named PATH, the composed
environment's PATH is the bulk-copied expansion value, not the
addToPath/inherited-PATH composition the claim requires. -/
theorem C6_counterexample :
    (doExpansions (fun s => Except.ok s) [("PATH", "/evil")] "/usr/bin" ":"
        { emptyExec with Path := ["/opt/tool"], AddExpansionsToEnv := true }).map
      (fun c => envGet c.Env "PATH") = .ok (some "/evil") ∧
    some ("/evil" : String) ≠ some ("/opt/tool" ++ ":" ++ "/usr/bin") :=
  ⟨rfl, by decide⟩

/-- C6 (amended): for every specification with non-empty `addToPath`,
provided the expansion bulk-copy does not also rewrite PATH
(`addExpansionsToEnv` unset, PATH not among `includeExpansionsInEnv`),
the composed environment's PATH is the expanded addToPath segments in
order followed by the caller's inherited PATH as the final segment,
joined with the path-list separator, overriding any PATH previously
present in `env`. -/
theorem C6_path_composition (expand : String → Except String String)
    (expMap : EnvMap) (osPATH listSep : String) (c c' : SubprocessExec)
    (hne : c.Path ≠ []) (hadd : c.AddExpansionsToEnv = false)
    (hinc : "PATH" ∉ c.IncludeExpansionsInEnv)
    (hok : doExpansions expand expMap osPATH listSep c = .ok c') :
    envGet c'.Env "PATH" =
      some (String.intercalate listSep ((expandPath expand c.Path).1 ++ [osPATH])) ∧
    c.Path.map expand = (expandPath expand c.Path).1.map Except.ok := by
  obtain ⟨hc', hfail⟩ := doExpansions_ok expand expMap osPATH listSep c c' hok
  subst hc'
  have hpath2 : (expandPath expand c.Path).2 = [] := by
    simp [expansionFailures, hne, List.append_eq_nil] at hfail
    exact hfail.2.2.2.2.2
  refine ⟨?_, expandPath_spec expand c.Path hpath2⟩
  rw [doExpansionsCore_env_of_path expand expMap osPATH listSep c hne hadd]
  rw [envGet_includeFold expMap c.IncludeExpansionsInEnv _ "PATH" hinc]
  rw [envGet_envSet, if_pos rfl]

/-- C6 witness: `addToPath = ["/opt/tool"]` with inherited PATH `OLD`
yields `"/opt/tool:OLD"`. -/
theorem C6_witness :
    envGet [("PATH", "/opt/tool:OLD")] "PATH" = some "/opt/tool:OLD" ∧
    (["/opt/tool"] : List String).map (fun s => Except.ok (ε := String) s) =
      [Except.ok "/opt/tool"] :=
  C6_path_composition (fun s => Except.ok s) [] "OLD" ":"
    { emptyExec with Path := ["/opt/tool"] }
    { emptyExec with Path := ["/opt/tool"], Env := [("PATH", "/opt/tool:OLD")] }
    (by decide) rfl (by decide) rfl

/-! ## Claims on the execution supervisor -/

/-- C3: unless `keepEmptyArgs` is set, the argument list handed to the
process is the post-expansion argument list with every exact
empty-string argument removed; every non-empty argument (in particular a
whitespace-only one) keeps all its occurrences; and
`["a", "", "b", ""]` strips to `["a", "b"]`. -/
theorem C3_empty_args_stripped (expand : String → Except String String)
    (expMap : EnvMap) (osPATH listSep : String)
    (gwd : String → Except String String) (confWorkDir taskID : String)
    (agentPid : Nat) (runResult : Option String) (ctxCancelled : Bool)
    (c c' : SubprocessExec) (wd : String)
    (hexp : doExpansions expand expMap osPATH listSep c = .ok c')
    (hwd : gwd c'.WorkingDir = .ok wd)
    (hkeep : c.KeepEmptyArgs = false) :
    (Execute expand expMap osPATH listSep gwd confWorkDir taskID agentPid
        runResult ctxCancelled c).finalArgs = c'.Args.filter (fun a => a ≠ "") ∧
    (∀ a, a ≠ "" →
      (Execute expand expMap osPATH listSep gwd confWorkDir taskID agentPid
          runResult ctxCancelled c).finalArgs.count a = c'.Args.count a) ∧
    stripEmptyArgs ["a", "", "b", ""] = ["a", "b"] := by
  obtain ⟨tmp, log₀, heq⟩ := Execute_eq_spawn expand expMap osPATH listSep gwd
    confWorkDir taskID agentPid runResult ctxCancelled c c' wd hexp hwd
  have hkeep' : ({ c' with WorkingDir := wd } : SubprocessExec).KeepEmptyArgs = false :=
    (doExpansions_preserves expand expMap osPATH listSep c c' hexp).2.1.trans hkeep
  rw [heq, executeSpawn_finalArgs taskID agentPid runResult ctxCancelled tmp log₀
    { c' with WorkingDir := wd } hkeep']
  refine ⟨?_, ?_, rfl⟩
  · exact stripEmptyArgs_eq_filter c'.Args
  · intro a ha
    exact count_stripEmptyArgs c'.Args a ha

/-- C3 witness: post-expansion arguments `["a", "", "b", ""]` reach the
process as `["a", "b"]`. -/
theorem C3_witness :
    (Execute (fun s => Except.ok s) [] "p" ":" (fun s => Except.ok s) "" "t1" 7
        none false { emptyExec with Args := ["a", "", "b", ""] }).finalArgs =
      ["a", "b"] :=
  (C3_empty_args_stripped (fun s => Except.ok s) [] "p" ":" (fun s => Except.ok s)
    "" "t1" 7 none false { emptyExec with Args := ["a", "", "b", ""] }
    { emptyExec with Args := ["a", "", "b", ""] } "" rfl rfl rfl).1.trans (by rfl)

/-- C2 counterexample: the task-id marker is injected even when the user
explicitly set it — the user-provided value is overwritten, not
preserved. -/
theorem C2_counterexample :
    envGet (getProcEnv "t1" 42 "/work" [(MarkerTaskID, "user-chosen")])
      MarkerTaskID = some "t1" ∧
    ("t1" : String) ≠ "user-chosen" :=
  ⟨rfl, by decide⟩

/-- C2 (amended): GOCACHE, CI and the temp-directory variables TMP,
TMPDIR, TEMP are injected only for names the user has not already set (a
user value is preserved), while the task-id and agent-pid markers are
always assigned the derived values, overwriting any user value. -/
theorem C2_derived_env_injection (taskID : String) (agentPid : Nat)
    (workingDir dir : String) (env : EnvMap) :
    envGet (getProcEnv taskID agentPid workingDir env) MarkerTaskID =
      some taskID ∧
    envGet (getProcEnv taskID agentPid workingDir env) MarkerAgentPID =
      some (toString agentPid) ∧
    envGet (getProcEnv taskID agentPid workingDir env) "GOCACHE" =
      some ((envGet env "GOCACHE").getD (pathJoin workingDir ".gocache")) ∧
    envGet (getProcEnv taskID agentPid workingDir env) "CI" =
      some ((envGet env "CI").getD "true") ∧
    envGet (addTempDirs env dir) "TMP" = some ((envGet env "TMP").getD dir) ∧
    envGet (addTempDirs env dir) "TMPDIR" = some ((envGet env "TMPDIR").getD dir) ∧
    envGet (addTempDirs env dir) "TEMP" = some ((envGet env "TEMP").getD dir) := by
  unfold getProcEnv addTempDirs
  simp [envGet_condSet, envGet_envSet, MarkerTaskID, MarkerAgentPID]

/-- C8: for a background invocation whose launch fails, the private
cancellation signal created for the detached process has been released
by the time the launch error is returned — no cancellation resource
leaks on the failure path. -/
theorem C8_background_launch_failure (e : String) :
    (procConstructor true (.error e)).privateCancelCreated = true ∧
    (procConstructor true (.error e)).privateCancelReleased = true ∧
    (procConstructor true (.error e)).result = .error e :=
  ⟨rfl, rfl, rfl⟩

/-- C1: when the caller's cancellation signal has fired by the time the
run returns, `Execute` returns the aborted outcome even with
`continueOnError = true`, and the diagnostic dump of all tracked
processes is logged to the system sink. -/
theorem C1_abort_overrides_continue (expand : String → Except String String)
    (expMap : EnvMap) (osPATH listSep : String)
    (gwd : String → Except String String) (confWorkDir taskID : String)
    (agentPid : Nat) (runResult : Option String) (c c' : SubprocessExec)
    (wd : String)
    (hexp : doExpansions expand expMap osPATH listSep c = .ok c')
    (hwd : gwd c'.WorkingDir = .ok wd)
    (_hcont : c.ContinueOnError = true) :
    (Execute expand expMap osPATH listSep gwd confWorkDir taskID agentPid
        runResult true c).error = some (.aborted "subprocess.exec") ∧
    LogEvent.systemProcessDump ∈
      (Execute expand expMap osPATH listSep gwd confWorkDir taskID agentPid
        runResult true c).log := by
  obtain ⟨tmp, log₀, heq⟩ := Execute_eq_spawn expand expMap osPATH listSep gwd
    confWorkDir taskID agentPid runResult true c c' wd hexp hwd
  rw [heq]
  exact ⟨executeSpawn_cancelled_error _ _ _ _ _ _,
    executeSpawn_cancelled_dump _ _ _ _ _ _⟩

/-- C1 witness: a cancelled run with `continueOnError = true` still
aborts and dumps the process registry. -/
theorem C1_witness :
    (Execute (fun s => Except.ok s) [] "p" ":" (fun s => Except.ok s) "" "t1" 7
        none true { emptyExec with ContinueOnError := true }).error =
      some (.aborted "subprocess.exec") ∧
    LogEvent.systemProcessDump ∈
      (Execute (fun s => Except.ok s) [] "p" ":" (fun s => Except.ok s) "" "t1" 7
        none true { emptyExec with ContinueOnError := true }).log :=
  C1_abort_overrides_continue (fun s => Except.ok s) [] "p" ":"
    (fun s => Except.ok s) "" "t1" 7 none
    { emptyExec with ContinueOnError := true }
    { emptyExec with ContinueOnError := true } "" rfl rfl rfl

/-- C10: once the spawning phase is reached, whether `Execute` returns
the aborted outcome is decided solely by whether the caller's
cancellation signal has fired by the time the run returns — independent
of the run's own result (even on success the exit status is discarded)
and of the background flag. -/
theorem C10_abort_iff_cancelled (expand : String → Except String String)
    (expMap : EnvMap) (osPATH listSep : String)
    (gwd : String → Except String String) (confWorkDir taskID : String)
    (agentPid : Nat) (runResult : Option String) (ctxCancelled : Bool)
    (c c' : SubprocessExec) (wd : String)
    (hexp : doExpansions expand expMap osPATH listSep c = .ok c')
    (hwd : gwd c'.WorkingDir = .ok wd) :
    (Execute expand expMap osPATH listSep gwd confWorkDir taskID agentPid
        runResult ctxCancelled c).error = some (.aborted "subprocess.exec") ↔
      ctxCancelled = true := by
  obtain ⟨tmp, log₀, heq⟩ := Execute_eq_spawn expand expMap osPATH listSep gwd
    confWorkDir taskID agentPid runResult ctxCancelled c c' wd hexp hwd
  rw [heq]
  cases ctxCancelled with
  | true =>
    exact ⟨fun _ => rfl, fun _ => executeSpawn_cancelled_error _ _ _ _ _ _⟩
  | false =>
    constructor
    · intro h
      exact absurd h (executeSpawn_no_abort _ _ _ _ _ _ _)
    · intro h
      exact Bool.noConfusion h

/-- C10 witness: a successfully exited process (run result `none`) under
a fired cancellation signal still yields the aborted outcome, with
`background = true`. -/
theorem C10_witness :
    (Execute (fun s => Except.ok s) [] "p" ":" (fun s => Except.ok s) "" "t2" 9
        none true { emptyExec with Background := true }).error =
      some (.aborted "subprocess.exec") :=
  (C10_abort_iff_cancelled (fun s => Except.ok s) [] "p" ":" (fun s => Except.ok s)
    "" "t2" 9 none true { emptyExec with Background := true }
    { emptyExec with Background := true } "" rfl rfl).mpr rfl

end SubprocessExecSpec
